import Mathlib

/-!
Verification of the workflow graph visualizer
(`ButterflowWorkflowVisualization` and its helpers in the repository's
butterflow visualization module).

The development embeds, as Lean definitions, the status-aggregation and
edge-derivation logic of `transformButterflowToElements`, the count-badge
condition of the `ButterflowNode` renderer, and a small state machine for
the component's effect/layout lifecycle (`visible` flag, `nodes`/`edges`
state, asynchronous ELK layout resolution).  Theorems about these
definitions settle the specification's claims.
-/

/-- The six task statuses of the `ProjectStatus` union type. -/
inductive ProjectStatus where
  | todo
  | in_progress
  | done
  | closed
  | awaiting_trigger
  | is_bot_processing
deriving DecidableEq, Repr

/-- A task record (`ButterflowTask`): id, name, status, and the id of the
workflow node it is associated with. -/
structure ButterflowTask where
  id : String
  name : String
  status : ProjectStatus
  workflowStepId : String
deriving DecidableEq, Repr

/-- Modelled from the spec: the `Workflow` node shape from the missing
`./types` module, as used by `transformButterflowToElements` and described in
the input contract: `id` (string), `name` (string), and an optional
`depends_on` list of node ids. -/
structure WorkflowNode where
  id : String
  name : String
  depends_on : Option (List String)
deriving DecidableEq, Repr

/-- Modelled from the spec: the `Workflow` content object, an ordered list of
nodes. -/
structure Workflow where
  nodes : List WorkflowNode
deriving DecidableEq, Repr

/-- The interaction-state options passed to `transformButterflowToElements`
(`hoveredNodeId`, `selectedNodeId`; the `setHoveredNodeId` callback carries no
data and is omitted). -/
structure TransformOptions where
  hoveredNodeId : Option String
  selectedNodeId : Option String
deriving DecidableEq, Repr

/-- The `data` record placed on each produced ReactFlow node
(`ButterflowNodeData`). -/
structure ButterflowNodeData where
  name : String
  nodeStatus : ProjectStatus
  nodeTasks : List ButterflowTask
  hoveredNodeId : Option String
  selectedNodeId : Option String
deriving DecidableEq, Repr

/-- A produced ReactFlow node: id, the `data` record, and the position
(initially `{x: 0, y: 0}`, overwritten by layout).  Coordinates are modelled
as integers. -/
structure FlowNode where
  id : String
  data : ButterflowNodeData
  position : Int × Int
deriving DecidableEq, Repr

/-- A produced ReactFlow edge: id `e{dep}-{node.id}`, source `dep`, target
`node.id` (marker and styling constants omitted). -/
structure FlowEdge where
  id : String
  source : String
  target : String
deriving DecidableEq, Repr

/-- `tasks.filter((task) => task.workflowStepId === node.id)`: the tasks
associated with a node. -/
def nodeTasksOf (tasks : List ButterflowTask) (node : WorkflowNode) :
    List ButterflowTask :=
  tasks.filter (fun task => task.workflowStepId == node.id)

/-- The consolidated status computation of `transformButterflowToElements`:
starting from `todo`, if the node has associated tasks, the chain of
conditionals on `nodeTasks`. -/
def consolidatedStatus (nodeTasks : List ButterflowTask) : ProjectStatus :=
  if nodeTasks.length > 0 then
    if nodeTasks.any (fun t =>
        t.status == ProjectStatus.in_progress
          || t.status == ProjectStatus.is_bot_processing) then
      ProjectStatus.in_progress
    else if nodeTasks.all (fun t => t.status == ProjectStatus.done) then
      ProjectStatus.done
    else if nodeTasks.any (fun t => t.status == ProjectStatus.closed) then
      ProjectStatus.closed
    else if nodeTasks.any (fun t => t.status == ProjectStatus.awaiting_trigger) then
      ProjectStatus.awaiting_trigger
    else
      ProjectStatus.todo
  else
    ProjectStatus.todo

/-- The derived status of one node given the full task list. -/
def derivedNodeStatus (tasks : List ButterflowTask) (node : WorkflowNode) :
    ProjectStatus :=
  consolidatedStatus (nodeTasksOf tasks node)

/-- The nodes half of `transformButterflowToElements`: one `FlowNode` per
workflow node, carrying its associated tasks, consolidated status, the
interaction ids, and position `(0, 0)`. -/
def transformNodes (w : Workflow) (tasks : List ButterflowTask)
    (opts : TransformOptions) : List FlowNode :=
  w.nodes.map (fun node =>
    { id := node.id
      data :=
        { name := node.name
          nodeStatus := derivedNodeStatus tasks node
          nodeTasks := nodeTasksOf tasks node
          hoveredNodeId := opts.hoveredNodeId
          selectedNodeId := opts.selectedNodeId }
      position := (0, 0) })

/-- `node.depends_on ?? []`, the dependency list a node declares. -/
def depListOf (node : WorkflowNode) : List String :=
  node.depends_on.getD []

/-- The edge produced for one (dependency, node) pair. -/
def mkEdge (dep : String) (nodeId : String) : FlowEdge :=
  { id := "e" ++ dep ++ "-" ++ nodeId
    source := dep
    target := nodeId }

/-- The edges a single node contributes: one per declared dependency
(`node.depends_on?.map(...) ?? []`). -/
def edgesOfNode (node : WorkflowNode) : List FlowEdge :=
  (depListOf node).map (fun dep => mkEdge dep node.id)

/-- The edges half of `transformButterflowToElements`: nodes are filtered to
those with a defined, non-empty `depends_on`, then flat-mapped to one edge per
declared dependency. -/
def transformEdges (w : Workflow) : List FlowEdge :=
  (w.nodes.filter (fun node =>
      match node.depends_on with
      | some l => l.length > 0
      | none => false)).flatMap edgesOfNode

/-- `transformButterflowToElements`: the full transformation producing
`{ nodes, edges }`. -/
def transformButterflowToElements (w : Workflow) (tasks : List ButterflowTask)
    (opts : TransformOptions) : List FlowNode × List FlowEdge :=
  (transformNodes w tasks opts, transformEdges w)

/-! ### Component lifecycle model

`ButterflowWorkflowVisualization` keeps three pieces of React state:
`nodes` (initially `[]`), `edges` (initially `[]`) and `visible`
(initially `false`).  Its effect runs on every relevant input change:
it sets `visible` to `true`, transforms the inputs, and dispatches an
asynchronous ELK layout call; when a call resolves, its `then` callback
unconditionally overwrites `nodes` with the positioned nodes and `edges`
with the edge list captured at dispatch time.  The component renders the
ReactFlow surface (with the current `nodes`/`edges` state) exactly when
`visible` is `true`.

We model this as a state machine driven by two events: `effectRun`
(the synchronous body of the effect, which dispatches a layout call) and
`layoutResolve` (the `then` callback of some dispatched call, carrying
the inputs captured in its closure and the position assignment returned
by the layout engine). -/

/-- The inputs whose change re-triggers the effect: workflow, task list and
the interaction ids. -/
structure VisInput where
  workflow : Workflow
  tasks : List ButterflowTask
  opts : TransformOptions

/-- The nodes committed by a resolved layout call: the transformed nodes with
each position overwritten by the engine-returned coordinates for that node
id. -/
def layoutedNodes (inp : VisInput) (pos : String → Int × Int) :
    List FlowNode :=
  (transformNodes inp.workflow inp.tasks inp.opts).map
    (fun n => { n with position := pos n.id })

/-- The component's React state. -/
structure VisState where
  visible : Bool
  nodes : List FlowNode
  edges : List FlowEdge
deriving DecidableEq, Repr

/-- The initial state: `useState(false)` for `visible`, empty node and edge
state. -/
def initState : VisState :=
  { visible := false, nodes := [], edges := [] }

/-- Events observed by the component state. -/
inductive VisEvent where
  /-- The effect body runs for input `inp`: `setVisible(true)` and a layout
  call for `inp` is dispatched. -/
  | effectRun (inp : VisInput)
  /-- A dispatched layout call for input `inp` resolves with position
  assignment `pos`: its `then` callback commits the positioned nodes and the
  captured edges. -/
  | layoutResolve (inp : VisInput) (pos : String → Int × Int)

/-- Whether an event is a layout resolution. -/
def VisEvent.isResolve : VisEvent → Prop
  | .effectRun _ => False
  | .layoutResolve _ _ => True

instance : DecidablePred VisEvent.isResolve := fun e => by
  cases e <;> simp [VisEvent.isResolve] <;> infer_instance

/-- The state transition for one event. -/
def visStep (s : VisState) : VisEvent → VisState
  | .effectRun _ => { s with visible := true }
  | .layoutResolve inp pos =>
      { s with
          nodes := layoutedNodes inp pos
          edges := transformEdges inp.workflow }

/-- The state after a sequence of events, from the initial state. -/
def runTrace (evs : List VisEvent) : VisState :=
  evs.foldl visStep initState

/-- What the component displays: `none` when the surface is withheld
(`visible = false`), otherwise the current node/edge state. -/
def renderedContent (s : VisState) : Option (List FlowNode × List FlowEdge) :=
  if s.visible then some (s.nodes, s.edges) else none

/-- Well-formedness relative to already-dispatched inputs: every layout
resolution is for a call that was actually dispatched by an earlier
`effectRun`. -/
def wfTraceFrom (dispatched : List VisInput) : List VisEvent → Prop
  | [] => True
  | .effectRun inp :: rest => wfTraceFrom (inp :: dispatched) rest
  | .layoutResolve inp _ :: rest =>
      inp ∈ dispatched ∧ wfTraceFrom dispatched rest

/-- A trace is well-formed when every layout resolution corresponds to a
previously dispatched call. -/
def wfTrace (evs : List VisEvent) : Prop :=
  wfTraceFrom [] evs

/-- Whether an event is an effect run (a layout dispatch). -/
def VisEvent.isEffect : VisEvent → Prop
  | .effectRun _ => True
  | .layoutResolve _ _ => False

/-- The number of layout calls dispatched in a trace. -/
def dispatchCount (evs : List VisEvent) : Nat :=
  evs.countP (fun e => match e with | .effectRun _ => true | _ => false)

/-- The number of layout calls resolved in a trace. -/
def resolveCount (evs : List VisEvent) : Nat :=
  evs.countP (fun e => match e with | .layoutResolve _ _ => true | _ => false)

/-- In a well-formed trace, a layout call is pending exactly when more calls
have been dispatched than have resolved. -/
def pendingLayout (evs : List VisEvent) : Prop :=
  resolveCount evs < dispatchCount evs

/-- The per-node status mapping determined by the workflow and the task list
alone. -/
def nodeStatuses (w : Workflow) (tasks : List ButterflowTask) :
    List (String × ProjectStatus) :=
  w.nodes.map (fun node => (node.id, derivedNodeStatus tasks node))

/-- The visible content of a rendered `ButterflowNode` block: the (truncated)
display name and the optional task-count badge. -/
structure NodeView where
  label : String
  countBadge : Option Nat
deriving DecidableEq, Repr

/-- The rendering of `ButterflowNode` from its `data` record: the label shows
`name`, and the `{n} tasks` badge is rendered exactly when
`nodeTasks.length > 1`, showing the task count. -/
def renderButterflowNode (data : ButterflowNodeData) : NodeView :=
  { label := data.name
    countBadge :=
      if data.nodeTasks.length > 1 then some data.nodeTasks.length
      else none }

/-- The boolean "some associated task is active" test, as a proposition. -/
lemma any_active_iff (l : List ButterflowTask) :
    (l.any (fun t =>
        t.status == ProjectStatus.in_progress
          || t.status == ProjectStatus.is_bot_processing) = true) ↔
      ∃ t ∈ l, t.status = ProjectStatus.in_progress ∨
        t.status = ProjectStatus.is_bot_processing := by
  simp only [List.any_eq_true, Bool.or_eq_true, beq_iff_eq]

/-- The boolean "every associated task is done" test, as a proposition. -/
lemma all_done_iff (l : List ButterflowTask) :
    (l.all (fun t => t.status == ProjectStatus.done) = true) ↔
      ∀ t ∈ l, t.status = ProjectStatus.done := by
  simp only [List.all_eq_true, beq_iff_eq]

/-- The boolean "some associated task has status `s`" test, as a
proposition. -/
lemma any_status_iff (l : List ButterflowTask) (s : ProjectStatus) :
    (l.any (fun t => t.status == s) = true) ↔ ∃ t ∈ l, t.status = s := by
  simp only [List.any_eq_true, beq_iff_eq]

example :
    consolidatedStatus
      [⟨"t1", "a", ProjectStatus.in_progress, "n"⟩,
       ⟨"t2", "b", ProjectStatus.done, "n"⟩] = ProjectStatus.in_progress := by
  decide

example :
    consolidatedStatus
      [⟨"t1", "a", ProjectStatus.done, "n"⟩,
       ⟨"t2", "b", ProjectStatus.closed, "n"⟩] = ProjectStatus.closed := by
  decide

example :
    transformEdges
      ⟨[⟨"A", "A", none⟩, ⟨"B", "B", some ["A"]⟩]⟩ =
      [⟨"eA-B", "A", "B"⟩] := by decide

/-! ### Rule-by-rule characterization of the consolidated status -/

lemma consolidatedStatus_nil : consolidatedStatus [] = ProjectStatus.todo := rfl

lemma consolidatedStatus_active (l : List ButterflowTask)
    (h : ∃ t ∈ l, t.status = ProjectStatus.in_progress ∨
        t.status = ProjectStatus.is_bot_processing) :
    consolidatedStatus l = ProjectStatus.in_progress := by
  obtain ⟨t, ht, _⟩ := h
  have hlen : l.length > 0 := List.length_pos.mpr (List.ne_nil_of_mem ht)
  have hany := (any_active_iff l).mpr ⟨t, ht, ‹_›⟩
  simp [consolidatedStatus, hlen, hany]

lemma consolidatedStatus_all_done (l : List ButterflowTask) (hne : l ≠ [])
    (hact : ¬ ∃ t ∈ l, t.status = ProjectStatus.in_progress ∨
        t.status = ProjectStatus.is_bot_processing)
    (hall : ∀ t ∈ l, t.status = ProjectStatus.done) :
    consolidatedStatus l = ProjectStatus.done := by
  have hlen : l.length > 0 := List.length_pos.mpr hne
  have hany : (l.any (fun t =>
      t.status == ProjectStatus.in_progress
        || t.status == ProjectStatus.is_bot_processing)) = false :=
    eq_false_of_ne_true (fun h => hact ((any_active_iff l).mp h))
  have hdone := (all_done_iff l).mpr hall
  simp [consolidatedStatus, hlen, hany, hdone]

lemma consolidatedStatus_closed (l : List ButterflowTask) (hne : l ≠ [])
    (hact : ¬ ∃ t ∈ l, t.status = ProjectStatus.in_progress ∨
        t.status = ProjectStatus.is_bot_processing)
    (hnall : ¬ ∀ t ∈ l, t.status = ProjectStatus.done)
    (hcl : ∃ t ∈ l, t.status = ProjectStatus.closed) :
    consolidatedStatus l = ProjectStatus.closed := by
  have hlen : l.length > 0 := List.length_pos.mpr hne
  have hany : (l.any (fun t =>
      t.status == ProjectStatus.in_progress
        || t.status == ProjectStatus.is_bot_processing)) = false :=
    eq_false_of_ne_true (fun h => hact ((any_active_iff l).mp h))
  have hall : (l.all (fun t => t.status == ProjectStatus.done)) = false :=
    eq_false_of_ne_true (fun h => hnall ((all_done_iff l).mp h))
  have hc := (any_status_iff l ProjectStatus.closed).mpr hcl
  simp [consolidatedStatus, hlen, hany, hall, hc]

lemma consolidatedStatus_awaiting (l : List ButterflowTask) (hne : l ≠ [])
    (hact : ¬ ∃ t ∈ l, t.status = ProjectStatus.in_progress ∨
        t.status = ProjectStatus.is_bot_processing)
    (hnall : ¬ ∀ t ∈ l, t.status = ProjectStatus.done)
    (hncl : ¬ ∃ t ∈ l, t.status = ProjectStatus.closed)
    (haw : ∃ t ∈ l, t.status = ProjectStatus.awaiting_trigger) :
    consolidatedStatus l = ProjectStatus.awaiting_trigger := by
  have hlen : l.length > 0 := List.length_pos.mpr hne
  have hany : (l.any (fun t =>
      t.status == ProjectStatus.in_progress
        || t.status == ProjectStatus.is_bot_processing)) = false :=
    eq_false_of_ne_true (fun h => hact ((any_active_iff l).mp h))
  have hall : (l.all (fun t => t.status == ProjectStatus.done)) = false :=
    eq_false_of_ne_true (fun h => hnall ((all_done_iff l).mp h))
  have hc : (l.any (fun t => t.status == ProjectStatus.closed)) = false :=
    eq_false_of_ne_true
      (fun h => hncl ((any_status_iff l ProjectStatus.closed).mp h))
  have ha := (any_status_iff l ProjectStatus.awaiting_trigger).mpr haw
  simp [consolidatedStatus, hlen, hany, hall, hc, ha]

lemma consolidatedStatus_fallback (l : List ButterflowTask)
    (hact : ¬ ∃ t ∈ l, t.status = ProjectStatus.in_progress ∨
        t.status = ProjectStatus.is_bot_processing)
    (hnall : ¬ ∀ t ∈ l, t.status = ProjectStatus.done)
    (hncl : ¬ ∃ t ∈ l, t.status = ProjectStatus.closed)
    (hnaw : ¬ ∃ t ∈ l, t.status = ProjectStatus.awaiting_trigger) :
    consolidatedStatus l = ProjectStatus.todo := by
  have hany : (l.any (fun t =>
      t.status == ProjectStatus.in_progress
        || t.status == ProjectStatus.is_bot_processing)) = false :=
    eq_false_of_ne_true (fun h => hact ((any_active_iff l).mp h))
  have hall : (l.all (fun t => t.status == ProjectStatus.done)) = false :=
    eq_false_of_ne_true (fun h => hnall ((all_done_iff l).mp h))
  have hc : (l.any (fun t => t.status == ProjectStatus.closed)) = false :=
    eq_false_of_ne_true
      (fun h => hncl ((any_status_iff l ProjectStatus.closed).mp h))
  have ha : (l.any (fun t => t.status == ProjectStatus.awaiting_trigger)) = false :=
    eq_false_of_ne_true
      (fun h => hnaw ((any_status_iff l ProjectStatus.awaiting_trigger).mp h))
  by_cases hlen : l.length > 0
  · simp [consolidatedStatus, hlen, hany, hall, hc, ha]
  · simp [consolidatedStatus, hlen]

/-! ### Claims -/

/-- C1: For every workflow node and every task list, the derived node status
follows the priority-ordered, first-match-wins rules: zero associated tasks
gives `todo`; otherwise any `in_progress`/`is_bot_processing` task gives
`in_progress`; otherwise all-`done` gives `done`; otherwise any `closed`
gives `closed`; otherwise any `awaiting_trigger` gives `awaiting_trigger`;
otherwise `todo`. -/
theorem derivedNodeStatus_priority_rules (tasks : List ButterflowTask)
    (node : WorkflowNode) :
    (nodeTasksOf tasks node = [] →
      derivedNodeStatus tasks node = ProjectStatus.todo) ∧
    ((∃ t ∈ nodeTasksOf tasks node,
        t.status = ProjectStatus.in_progress ∨
          t.status = ProjectStatus.is_bot_processing) →
      derivedNodeStatus tasks node = ProjectStatus.in_progress) ∧
    (nodeTasksOf tasks node ≠ [] →
      ¬ (∃ t ∈ nodeTasksOf tasks node,
          t.status = ProjectStatus.in_progress ∨
            t.status = ProjectStatus.is_bot_processing) →
      (∀ t ∈ nodeTasksOf tasks node, t.status = ProjectStatus.done) →
      derivedNodeStatus tasks node = ProjectStatus.done) ∧
    (nodeTasksOf tasks node ≠ [] →
      ¬ (∃ t ∈ nodeTasksOf tasks node,
          t.status = ProjectStatus.in_progress ∨
            t.status = ProjectStatus.is_bot_processing) →
      ¬ (∀ t ∈ nodeTasksOf tasks node, t.status = ProjectStatus.done) →
      (∃ t ∈ nodeTasksOf tasks node, t.status = ProjectStatus.closed) →
      derivedNodeStatus tasks node = ProjectStatus.closed) ∧
    (nodeTasksOf tasks node ≠ [] →
      ¬ (∃ t ∈ nodeTasksOf tasks node,
          t.status = ProjectStatus.in_progress ∨
            t.status = ProjectStatus.is_bot_processing) →
      ¬ (∀ t ∈ nodeTasksOf tasks node, t.status = ProjectStatus.done) →
      ¬ (∃ t ∈ nodeTasksOf tasks node, t.status = ProjectStatus.closed) →
      (∃ t ∈ nodeTasksOf tasks node,
        t.status = ProjectStatus.awaiting_trigger) →
      derivedNodeStatus tasks node = ProjectStatus.awaiting_trigger) ∧
    (¬ (∃ t ∈ nodeTasksOf tasks node,
        t.status = ProjectStatus.in_progress ∨
          t.status = ProjectStatus.is_bot_processing) →
      ¬ (∀ t ∈ nodeTasksOf tasks node, t.status = ProjectStatus.done) →
      ¬ (∃ t ∈ nodeTasksOf tasks node, t.status = ProjectStatus.closed) →
      ¬ (∃ t ∈ nodeTasksOf tasks node,
          t.status = ProjectStatus.awaiting_trigger) →
      derivedNodeStatus tasks node = ProjectStatus.todo) := by
  refine ⟨?_, ?_, ?_, ?_, ?_, ?_⟩
  · intro h
    simp [derivedNodeStatus, h, consolidatedStatus_nil]
  · intro h
    exact consolidatedStatus_active _ h
  · intro hne hact hall
    exact consolidatedStatus_all_done _ hne hact hall
  · intro hne hact hnall hcl
    exact consolidatedStatus_closed _ hne hact hnall hcl
  · intro hne hact hnall hncl haw
    exact consolidatedStatus_awaiting _ hne hact hnall hncl haw
  · intro hact hnall hncl hnaw
    exact consolidatedStatus_fallback _ hact hnall hncl hnaw

/-- Witness for C1: the rules evaluated at concrete inputs — node `n` with
tasks `[done, closed]` derives `closed` (rule 4), with `[in_progress, done]`
derives `in_progress` (rule 2), and with no tasks derives `todo` (rule 1). -/
theorem derivedNodeStatus_priority_rules_witness :
    derivedNodeStatus
      [⟨"t1", "a", ProjectStatus.done, "n"⟩,
       ⟨"t2", "b", ProjectStatus.closed, "n"⟩]
      ⟨"n", "Node", none⟩ = ProjectStatus.closed ∧
    derivedNodeStatus
      [⟨"t1", "a", ProjectStatus.in_progress, "n"⟩,
       ⟨"t2", "b", ProjectStatus.done, "n"⟩]
      ⟨"n", "Node", none⟩ = ProjectStatus.in_progress ∧
    derivedNodeStatus [] ⟨"n", "Node", none⟩ = ProjectStatus.todo :=
  ⟨(derivedNodeStatus_priority_rules
      [⟨"t1", "a", ProjectStatus.done, "n"⟩,
       ⟨"t2", "b", ProjectStatus.closed, "n"⟩]
      ⟨"n", "Node", none⟩).2.2.2.1
        (by decide) (by decide) (by decide) (by decide),
   (derivedNodeStatus_priority_rules
      [⟨"t1", "a", ProjectStatus.in_progress, "n"⟩,
       ⟨"t2", "b", ProjectStatus.done, "n"⟩]
      ⟨"n", "Node", none⟩).2.1 (by decide),
   (derivedNodeStatus_priority_rules [] ⟨"n", "Node", none⟩).1 (by decide)⟩

/-! ### Permutation invariance -/

lemma perm_any_eq {α : Type} {l1 l2 : List α} (h : l1.Perm l2)
    (p : α → Bool) : l1.any p = l2.any p := by
  rw [Bool.eq_iff_iff]
  simp only [List.any_eq_true]
  exact ⟨fun ⟨x, hx, hp⟩ => ⟨x, h.mem_iff.mp hx, hp⟩,
    fun ⟨x, hx, hp⟩ => ⟨x, h.mem_iff.mpr hx, hp⟩⟩

lemma perm_all_eq {α : Type} {l1 l2 : List α} (h : l1.Perm l2)
    (p : α → Bool) : l1.all p = l2.all p := by
  rw [Bool.eq_iff_iff]
  simp only [List.all_eq_true]
  exact ⟨fun hall x hx => hall x (h.mem_iff.mpr hx),
    fun hall x hx => hall x (h.mem_iff.mp hx)⟩

lemma consolidatedStatus_perm {l1 l2 : List ButterflowTask} (h : l1.Perm l2) :
    consolidatedStatus l1 = consolidatedStatus l2 := by
  unfold consolidatedStatus
  rw [h.length_eq, perm_any_eq h, perm_all_eq h, perm_any_eq h, perm_any_eq h]

/-- C3: For every node and every permutation of the input task list, the
derived node status is the same: status aggregation is independent of task
ordering. -/
theorem derivedNodeStatus_perm_invariant (tasks1 tasks2 : List ButterflowTask)
    (h : tasks1.Perm tasks2) (node : WorkflowNode) :
    derivedNodeStatus tasks1 node = derivedNodeStatus tasks2 node := by
  unfold derivedNodeStatus nodeTasksOf
  exact consolidatedStatus_perm
    (h.filter (fun task => task.workflowStepId == node.id))

/-- Witness for C3: a node with tasks `[in_progress, done]` derives
`in_progress` in both orders of the input list. -/
theorem derivedNodeStatus_perm_invariant_witness :
    derivedNodeStatus
      [⟨"t1", "a", ProjectStatus.in_progress, "n"⟩,
       ⟨"t2", "b", ProjectStatus.done, "n"⟩] ⟨"n", "Node", none⟩ =
      derivedNodeStatus
        [⟨"t2", "b", ProjectStatus.done, "n"⟩,
         ⟨"t1", "a", ProjectStatus.in_progress, "n"⟩] ⟨"n", "Node", none⟩ ∧
    derivedNodeStatus
      [⟨"t2", "b", ProjectStatus.done, "n"⟩,
       ⟨"t1", "a", ProjectStatus.in_progress, "n"⟩] ⟨"n", "Node", none⟩ =
      ProjectStatus.in_progress :=
  ⟨derivedNodeStatus_perm_invariant _ _ (by decide) ⟨"n", "Node", none⟩,
   by decide⟩

/-- C7: Re-running the status aggregation on an unchanged (nodes, tasks) pair
yields an identical per-node status mapping: the aggregation is a pure
function of the workflow and task list (in particular it does not depend on
the interaction options), with no hidden state. -/
theorem aggregation_rerun_identical (w : Workflow)
    (tasks : List ButterflowTask) (opts1 opts2 : TransformOptions) :
    ((transformButterflowToElements w tasks opts1).1.map
        (fun fn => (fn.id, fn.data.nodeStatus)) = nodeStatuses w tasks) ∧
    ((transformButterflowToElements w tasks opts1).1.map
        (fun fn => (fn.id, fn.data.nodeStatus)) =
      (transformButterflowToElements w tasks opts2).1.map
        (fun fn => (fn.id, fn.data.nodeStatus))) := by
  constructor
  · simp [transformButterflowToElements, transformNodes, nodeStatuses,
      List.map_map, Function.comp]
  · simp [transformButterflowToElements, transformNodes, List.map_map,
      Function.comp]

/-- C9: The derived node status is never `is_bot_processing`: it is always
one of the five values `todo`, `in_progress`, `done`, `closed`,
`awaiting_trigger`, and a task carrying `is_bot_processing` maps its node to
`in_progress`. -/
theorem derivedNodeStatus_never_bot (tasks : List ButterflowTask)
    (node : WorkflowNode) :
    (derivedNodeStatus tasks node = ProjectStatus.todo ∨
      derivedNodeStatus tasks node = ProjectStatus.in_progress ∨
      derivedNodeStatus tasks node = ProjectStatus.done ∨
      derivedNodeStatus tasks node = ProjectStatus.closed ∨
      derivedNodeStatus tasks node = ProjectStatus.awaiting_trigger) ∧
    ((∃ t ∈ nodeTasksOf tasks node,
        t.status = ProjectStatus.is_bot_processing) →
      derivedNodeStatus tasks node = ProjectStatus.in_progress) := by
  constructor
  · unfold derivedNodeStatus consolidatedStatus
    split_ifs <;> simp
  · intro ⟨t, ht, hs⟩
    exact consolidatedStatus_active _ ⟨t, ht, Or.inr hs⟩

/-- Witness for C9: a node whose only task is `is_bot_processing` derives
`in_progress`, which is among the five non-bot values. -/
theorem derivedNodeStatus_never_bot_witness :
    derivedNodeStatus [⟨"t1", "a", ProjectStatus.is_bot_processing, "n"⟩]
      ⟨"n", "Node", none⟩ = ProjectStatus.in_progress :=
  (derivedNodeStatus_never_bot
    [⟨"t1", "a", ProjectStatus.is_bot_processing, "n"⟩]
    ⟨"n", "Node", none⟩).2 (by decide)

lemma nodeTasksOf_unmatched (l1 l2 : List ButterflowTask)
    (t : ButterflowTask) (node : WorkflowNode)
    (h : t.workflowStepId ≠ node.id) :
    nodeTasksOf (l1 ++ t :: l2) node = nodeTasksOf (l1 ++ l2) node := by
  simp [nodeTasksOf, List.filter_append, List.filter_cons, h]

/-- C4: A task whose `workflowStepId` matches no node identifier in the
workflow is silently excluded: inserting it anywhere in the task list leaves
the entire transformation output — every node's derived status, task list
(hence task count), and all edges — unchanged, and the transformation remains
total (no error path). -/
theorem unmatched_task_excluded (w : Workflow)
    (tasks1 tasks2 : List ButterflowTask) (opts : TransformOptions)
    (t : ButterflowTask) (h : ∀ node ∈ w.nodes, t.workflowStepId ≠ node.id) :
    transformButterflowToElements w (tasks1 ++ t :: tasks2) opts =
      transformButterflowToElements w (tasks1 ++ tasks2) opts := by
  have hnodes : transformNodes w (tasks1 ++ t :: tasks2) opts =
      transformNodes w (tasks1 ++ tasks2) opts := by
    unfold transformNodes
    apply List.map_congr_left
    intro node hnode
    have hnt := nodeTasksOf_unmatched tasks1 tasks2 t node (h node hnode)
    simp [derivedNodeStatus, hnt]
  simp [transformButterflowToElements, hnodes]

/-- Witness for C4: inserting a task referencing the unknown step id `"x"`
into the task list of a one-node workflow leaves the output unchanged. -/
theorem unmatched_task_excluded_witness :
    transformButterflowToElements ⟨[⟨"n", "Node", none⟩]⟩
      ([⟨"t1", "a", ProjectStatus.done, "n"⟩] ++
        ⟨"tx", "stray", ProjectStatus.in_progress, "x"⟩ ::
          [⟨"t2", "b", ProjectStatus.closed, "n"⟩]) ⟨none, none⟩ =
      transformButterflowToElements ⟨[⟨"n", "Node", none⟩]⟩
        ([⟨"t1", "a", ProjectStatus.done, "n"⟩] ++
          [⟨"t2", "b", ProjectStatus.closed, "n"⟩]) ⟨none, none⟩ :=
  unmatched_task_excluded ⟨[⟨"n", "Node", none⟩]⟩
    [⟨"t1", "a", ProjectStatus.done, "n"⟩]
    [⟨"t2", "b", ProjectStatus.closed, "n"⟩] ⟨none, none⟩
    ⟨"tx", "stray", ProjectStatus.in_progress, "x"⟩ (by decide)

/-- C8: Every node produced by the transformation renders with a task-count
badge exactly when it aggregates more than one associated task; with zero or
one associated task no badge is shown, and when shown the badge carries the
task count. -/
theorem countBadge_condition (w : Workflow) (tasks : List ButterflowTask)
    (opts : TransformOptions) (fn : FlowNode)
    (h : fn ∈ (transformButterflowToElements w tasks opts).1) :
    ∃ node ∈ w.nodes, fn.id = node.id ∧
      fn.data.nodeTasks = nodeTasksOf tasks node ∧
      ((renderButterflowNode fn.data).countBadge ≠ none ↔
        1 < (nodeTasksOf tasks node).length) ∧
      (1 < (nodeTasksOf tasks node).length →
        (renderButterflowNode fn.data).countBadge =
          some (nodeTasksOf tasks node).length) := by
  simp only [transformButterflowToElements, transformNodes,
    List.mem_map] at h
  obtain ⟨node, hnode, rfl⟩ := h
  refine ⟨node, hnode, rfl, rfl, ?_, ?_⟩
  · by_cases h1 : 1 < (nodeTasksOf tasks node).length <;>
      simp [renderButterflowNode, h1]
  · intro h1
    simp [renderButterflowNode, h1]

/-- Witness for C8: in a one-node workflow whose node aggregates two tasks,
the rendered node shows the `2` count badge. -/
theorem countBadge_condition_witness :
    ∃ node ∈ (⟨[⟨"n", "Node", none⟩]⟩ : Workflow).nodes,
      (⟨"n",
        ⟨"Node", ProjectStatus.done,
          [⟨"t1", "a", ProjectStatus.done, "n"⟩,
           ⟨"t2", "b", ProjectStatus.done, "n"⟩], none, none⟩,
        (0, 0)⟩ : FlowNode).id = node.id ∧
      (⟨"n",
        ⟨"Node", ProjectStatus.done,
          [⟨"t1", "a", ProjectStatus.done, "n"⟩,
           ⟨"t2", "b", ProjectStatus.done, "n"⟩], none, none⟩,
        (0, 0)⟩ : FlowNode).data.nodeTasks =
        nodeTasksOf
          [⟨"t1", "a", ProjectStatus.done, "n"⟩,
           ⟨"t2", "b", ProjectStatus.done, "n"⟩] node ∧
      ((renderButterflowNode
          (⟨"n",
            ⟨"Node", ProjectStatus.done,
              [⟨"t1", "a", ProjectStatus.done, "n"⟩,
               ⟨"t2", "b", ProjectStatus.done, "n"⟩], none, none⟩,
            (0, 0)⟩ : FlowNode).data).countBadge ≠ none ↔
        1 < (nodeTasksOf
          [⟨"t1", "a", ProjectStatus.done, "n"⟩,
           ⟨"t2", "b", ProjectStatus.done, "n"⟩] node).length) ∧
      (1 < (nodeTasksOf
          [⟨"t1", "a", ProjectStatus.done, "n"⟩,
           ⟨"t2", "b", ProjectStatus.done, "n"⟩] node).length →
        (renderButterflowNode
          (⟨"n",
            ⟨"Node", ProjectStatus.done,
              [⟨"t1", "a", ProjectStatus.done, "n"⟩,
               ⟨"t2", "b", ProjectStatus.done, "n"⟩], none, none⟩,
            (0, 0)⟩ : FlowNode).data).countBadge =
          some (nodeTasksOf
            [⟨"t1", "a", ProjectStatus.done, "n"⟩,
             ⟨"t2", "b", ProjectStatus.done, "n"⟩] node).length) :=
  countBadge_condition ⟨[⟨"n", "Node", none⟩]⟩
    [⟨"t1", "a", ProjectStatus.done, "n"⟩,
     ⟨"t2", "b", ProjectStatus.done, "n"⟩] ⟨none, none⟩ _ (by decide)

/-! ### Edge derivation -/

lemma filter_flatMap_edges (nodes : List WorkflowNode) :
    (nodes.filter (fun node =>
        match node.depends_on with
        | some l => l.length > 0
        | none => false)).flatMap edgesOfNode = nodes.flatMap edgesOfNode := by
  induction nodes with
  | nil => rfl
  | cons node ns ih =>
    rw [List.filter_cons, List.flatMap_cons]
    by_cases h : (match node.depends_on with
        | some l => decide (l.length > 0)
        | none => false) = true
    · rw [if_pos h, List.flatMap_cons, ih]
    · rw [if_neg h, ih]
      have hnil : edgesOfNode node = [] := by
        unfold edgesOfNode depListOf
        cases hd : node.depends_on with
        | none => rfl
        | some l =>
          rw [hd] at h
          simp at h
          simp [h]
      rw [hnil, List.nil_append]

lemma transformEdges_eq_flatMap (w : Workflow) :
    transformEdges w = w.nodes.flatMap edgesOfNode :=
  filter_flatMap_edges w.nodes

lemma countP_edgesOfNode (node : WorkflowNode) (d n : String) :
    (edgesOfNode node).countP (fun e => e.source == d && e.target == n) =
      if node.id = n then (depListOf node).count d else 0 := by
  unfold edgesOfNode
  rw [List.countP_map]
  by_cases h : node.id = n
  · subst h
    rw [if_pos rfl]
    have hfun : ((fun e : FlowEdge => e.source == d && e.target == node.id) ∘
        (fun dep => mkEdge dep node.id)) = (fun dep => dep == d) := by
      funext dep
      simp [mkEdge, Function.comp]
    rw [hfun]
    rfl
  · rw [if_neg h]
    apply List.countP_eq_zero.mpr
    intro dep _
    simp [mkEdge, Function.comp, h]

lemma countP_flatMap_edges_zero (ns : List WorkflowNode) (d n : String)
    (h : ∀ node ∈ ns, node.id ≠ n) :
    (ns.flatMap edgesOfNode).countP
      (fun e => e.source == d && e.target == n) = 0 := by
  apply List.countP_eq_zero.mpr
  intro e he
  obtain ⟨node, hnode, he2⟩ := List.mem_flatMap.mp he
  simp only [edgesOfNode, List.mem_map] at he2
  obtain ⟨dep, _, rfl⟩ := he2
  simp [mkEdge, h node hnode]

lemma countP_flatMap_edges (nodes : List WorkflowNode) (d n : String)
    (hids : (nodes.map WorkflowNode.id).Nodup)
    (hdeps : ∀ node ∈ nodes, (depListOf node).Nodup) :
    (nodes.flatMap edgesOfNode).countP
        (fun e => e.source == d && e.target == n) =
      if ∃ node ∈ nodes, node.id = n ∧ d ∈ depListOf node then 1 else 0 := by
  induction nodes with
  | nil => simp
  | cons node ns ih =>
    rw [List.flatMap_cons, List.countP_append, countP_edgesOfNode]
    rw [List.map_cons, List.nodup_cons] at hids
    obtain ⟨hnotin, hids2⟩ := hids
    have ihs := ih hids2 (fun x hx => hdeps x (List.mem_cons_of_mem _ hx))
    by_cases hn : node.id = n
    · subst hn
      rw [if_pos rfl]
      have htail : ∀ x ∈ ns, x.id ≠ node.id := fun x hx heq =>
        hnotin (heq ▸ List.mem_map_of_mem WorkflowNode.id hx)
      rw [countP_flatMap_edges_zero ns d node.id htail, Nat.add_zero]
      have hex : (∃ x ∈ node :: ns, x.id = node.id ∧ d ∈ depListOf x) ↔
          d ∈ depListOf node := by
        constructor
        · rintro ⟨x, hx, hxid, hxd⟩
          rcases List.mem_cons.mp hx with rfl | hx2
          · exact hxd
          · exact absurd hxid (htail x hx2)
        · intro hd
          exact ⟨node, List.mem_cons_self node ns, rfl, hd⟩
      rw [if_congr hex rfl rfl]
      by_cases hd : d ∈ depListOf node
      · rw [if_pos hd,
          List.count_eq_one_of_mem (hdeps node (List.mem_cons_self node ns)) hd]
      · rw [if_neg hd, List.count_eq_zero_of_not_mem hd]
    · rw [if_neg hn, Nat.zero_add, ihs]
      have hex : (∃ x ∈ node :: ns, x.id = n ∧ d ∈ depListOf x) ↔
          (∃ x ∈ ns, x.id = n ∧ d ∈ depListOf x) := by
        constructor
        · rintro ⟨x, hx, hxid, hxd⟩
          rcases List.mem_cons.mp hx with rfl | hx2
          · exact absurd hxid hn
          · exact ⟨x, hx2, hxid, hxd⟩
        · rintro ⟨x, hx, hxid, hxd⟩
          exact ⟨x, List.mem_cons_of_mem _ hx, hxid, hxd⟩
      rw [if_congr hex rfl rfl]

/-- C2: For every workflow with unique node ids and duplicate-free dependency
lists, the derived edge set contains exactly one edge per (dependency, node)
pair in which the node declares that dependency — for any strings `d`, `n`
the number of edges with source `d` and target `n` is `1` when some node with
id `n` declares dependency `d` and `0` otherwise — and every edge's
identifier is deterministically derived from the pair
(`e = mkEdge e.source e.target`, i.e. id `e{dep}-{node}`). -/
theorem one_edge_per_dependency_pair (w : Workflow)
    (hids : (w.nodes.map WorkflowNode.id).Nodup)
    (hdeps : ∀ node ∈ w.nodes, (depListOf node).Nodup) :
    (∀ d n : String,
      (transformEdges w).countP (fun e => e.source == d && e.target == n) =
        if ∃ node ∈ w.nodes, node.id = n ∧ d ∈ depListOf node then 1
        else 0) ∧
    (∀ e ∈ transformEdges w, e = mkEdge e.source e.target) := by
  constructor
  · intro d n
    rw [transformEdges_eq_flatMap]
    exact countP_flatMap_edges w.nodes d n hids hdeps
  · intro e he
    rw [transformEdges_eq_flatMap] at he
    obtain ⟨node, _, he2⟩ := List.mem_flatMap.mp he
    simp only [edgesOfNode, List.mem_map] at he2
    obtain ⟨dep, _, rfl⟩ := he2
    rfl

/-- Witness for C2: in the workflow with nodes `A`, `B` and
`B.depends_on = [A]`, exactly one edge has source `A` and target `B`, and the
edge list is exactly `[{id := "eA-B", source := "A", target := "B"}]`. -/
theorem one_edge_per_dependency_pair_witness :
    (transformEdges ⟨[⟨"A", "A", none⟩, ⟨"B", "B", some ["A"]⟩]⟩).countP
        (fun e => e.source == "A" && e.target == "B") = 1 ∧
    transformEdges ⟨[⟨"A", "A", none⟩, ⟨"B", "B", some ["A"]⟩]⟩ =
      [⟨"eA-B", "A", "B"⟩] := by
  constructor
  · rw [(one_edge_per_dependency_pair
      ⟨[⟨"A", "A", none⟩, ⟨"B", "B", some ["A"]⟩]⟩
      (by decide) (by decide)).1 "A" "B"]
    decide
  · decide

/-! ### Lifecycle lemmas -/

lemma foldl_visStep_nodes (evs : List VisEvent) (s : VisState)
    (h : ∀ e ∈ evs, ¬ e.isResolve) :
    (evs.foldl visStep s).nodes = s.nodes := by
  induction evs generalizing s with
  | nil => rfl
  | cons e rest ih =>
    cases e with
    | effectRun inp =>
      rw [List.foldl_cons]
      exact ih _ (fun x hx => h x (List.mem_cons_of_mem _ hx))
    | layoutResolve inp pos =>
      exact absurd trivial (h _ (List.mem_cons_self _ _))

lemma foldl_visStep_edges (evs : List VisEvent) (s : VisState)
    (h : ∀ e ∈ evs, ¬ e.isResolve) :
    (evs.foldl visStep s).edges = s.edges := by
  induction evs generalizing s with
  | nil => rfl
  | cons e rest ih =>
    cases e with
    | effectRun inp =>
      rw [List.foldl_cons]
      exact ih _ (fun x hx => h x (List.mem_cons_of_mem _ hx))
    | layoutResolve inp pos =>
      exact absurd trivial (h _ (List.mem_cons_self _ _))

lemma foldl_visStep_visible (evs : List VisEvent) (s : VisState)
    (h : ∀ e ∈ evs, ¬ e.isEffect) :
    (evs.foldl visStep s).visible = s.visible := by
  induction evs generalizing s with
  | nil => rfl
  | cons e rest ih =>
    cases e with
    | effectRun inp =>
      exact absurd trivial (h _ (List.mem_cons_self _ _))
    | layoutResolve inp pos =>
      rw [List.foldl_cons]
      exact ih _ (fun x hx => h x (List.mem_cons_of_mem _ hx))

/-- Counterexample for C5: in the well-formed trace "first layout dispatched,
first layout resolved, second layout dispatched", the second layout call is
still pending, yet the graph is rendered — the surface is displayed
(`renderedContent ≠ none`) and it shows the previously committed nodes
(`nodes ≠ []`).  The gating flag only withholds content before the first
effect run, not while a call is pending. -/
theorem graph_rendered_while_pending :
    wfTrace
      [VisEvent.effectRun ⟨⟨[⟨"n1", "First", none⟩]⟩, [], ⟨none, none⟩⟩,
       VisEvent.layoutResolve ⟨⟨[⟨"n1", "First", none⟩]⟩, [], ⟨none, none⟩⟩
         (fun _ => (0, 0)),
       VisEvent.effectRun ⟨⟨[⟨"n2", "Second", none⟩]⟩, [], ⟨none, none⟩⟩] ∧
    pendingLayout
      [VisEvent.effectRun ⟨⟨[⟨"n1", "First", none⟩]⟩, [], ⟨none, none⟩⟩,
       VisEvent.layoutResolve ⟨⟨[⟨"n1", "First", none⟩]⟩, [], ⟨none, none⟩⟩
         (fun _ => (0, 0)),
       VisEvent.effectRun ⟨⟨[⟨"n2", "Second", none⟩]⟩, [], ⟨none, none⟩⟩] ∧
    renderedContent (runTrace
      [VisEvent.effectRun ⟨⟨[⟨"n1", "First", none⟩]⟩, [], ⟨none, none⟩⟩,
       VisEvent.layoutResolve ⟨⟨[⟨"n1", "First", none⟩]⟩, [], ⟨none, none⟩⟩
         (fun _ => (0, 0)),
       VisEvent.effectRun ⟨⟨[⟨"n2", "Second", none⟩]⟩, [], ⟨none, none⟩⟩]) ≠
      none ∧
    (runTrace
      [VisEvent.effectRun ⟨⟨[⟨"n1", "First", none⟩]⟩, [], ⟨none, none⟩⟩,
       VisEvent.layoutResolve ⟨⟨[⟨"n1", "First", none⟩]⟩, [], ⟨none, none⟩⟩
         (fun _ => (0, 0)),
       VisEvent.effectRun ⟨⟨[⟨"n2", "Second", none⟩]⟩, [], ⟨none, none⟩⟩]).nodes ≠
      [] := by
  refine ⟨?_, ?_, ?_, ?_⟩
  · simp [wfTrace, wfTraceFrom]
  · unfold pendingLayout
    decide
  · decide
  · decide

/-- C5 amended: the gating flag withholds the surface only until the first
layout pass is dispatched, not until it resolves — before any effect run
nothing is rendered, and before any layout call has resolved no node is ever
displayed (the node state is still empty), so unpositioned (origin-stacked)
transform output is never shown. -/
theorem gating_until_first_layout (evs : List VisEvent) :
    ((∀ e ∈ evs, ¬ e.isEffect) → renderedContent (runTrace evs) = none) ∧
    ((∀ e ∈ evs, ¬ e.isResolve) → (runTrace evs).nodes = []) := by
  constructor
  · intro h
    have hv : (runTrace evs).visible = false := by
      have hvv := foldl_visStep_visible evs initState h
      simpa [runTrace, initState] using hvv
    simp [renderedContent, hv]
  · intro h
    have hn := foldl_visStep_nodes evs initState h
    simpa [runTrace, initState] using hn

/-- Witness for the amended C5: on the empty trace nothing is rendered, and
after a lone effect run (layout dispatched, not yet resolved) the node state
is still empty. -/
theorem gating_until_first_layout_witness :
    renderedContent (runTrace []) = none ∧
    (runTrace
      [VisEvent.effectRun
        ⟨⟨[⟨"n1", "First", none⟩]⟩, [], ⟨none, none⟩⟩]).nodes = [] :=
  ⟨(gating_until_first_layout []).1 (by simp),
   (gating_until_first_layout
      [VisEvent.effectRun
        ⟨⟨[⟨"n1", "First", none⟩]⟩, [], ⟨none, none⟩⟩]).2
      (by simp [VisEvent.isResolve])⟩

/-- C6: The displayed positions are those of the last layout call to resolve,
not the last one requested: after any trace ending in a layout resolution for
input `inp` (followed only by non-resolution events), the node state is the
positioned output of that resolution and the edge state is the edge set of
`inp`, regardless of what was dispatched before — a stale, slow-resolving
layout response overwrites a newer one. -/
theorem last_resolved_wins (pre post : List VisEvent) (inp : VisInput)
    (pos : String → Int × Int) (hpost : ∀ e ∈ post, ¬ e.isResolve) :
    (runTrace (pre ++ VisEvent.layoutResolve inp pos :: post)).nodes =
      layoutedNodes inp pos ∧
    (runTrace (pre ++ VisEvent.layoutResolve inp pos :: post)).edges =
      transformEdges inp.workflow := by
  unfold runTrace
  rw [List.foldl_append, List.foldl_cons]
  exact ⟨foldl_visStep_nodes post _ hpost, foldl_visStep_edges post _ hpost⟩

/-- Witness for C6: two layout calls are dispatched in the order first,
second; the second resolves first and the first (stale) call resolves last.
The trace is well-formed, and the displayed nodes are those of the stale
first input, not of the most recently requested second input. -/
theorem last_resolved_wins_witness :
    wfTrace
      [VisEvent.effectRun ⟨⟨[⟨"n1", "First", none⟩]⟩, [], ⟨none, none⟩⟩,
       VisEvent.effectRun ⟨⟨[⟨"n2", "Second", none⟩]⟩, [], ⟨none, none⟩⟩,
       VisEvent.layoutResolve ⟨⟨[⟨"n2", "Second", none⟩]⟩, [], ⟨none, none⟩⟩
         (fun _ => (0, 0)),
       VisEvent.layoutResolve ⟨⟨[⟨"n1", "First", none⟩]⟩, [], ⟨none, none⟩⟩
         (fun _ => (0, 0))] ∧
    (runTrace
      [VisEvent.effectRun ⟨⟨[⟨"n1", "First", none⟩]⟩, [], ⟨none, none⟩⟩,
       VisEvent.effectRun ⟨⟨[⟨"n2", "Second", none⟩]⟩, [], ⟨none, none⟩⟩,
       VisEvent.layoutResolve ⟨⟨[⟨"n2", "Second", none⟩]⟩, [], ⟨none, none⟩⟩
         (fun _ => (0, 0)),
       VisEvent.layoutResolve ⟨⟨[⟨"n1", "First", none⟩]⟩, [], ⟨none, none⟩⟩
         (fun _ => (0, 0))]).nodes =
      layoutedNodes ⟨⟨[⟨"n1", "First", none⟩]⟩, [], ⟨none, none⟩⟩
        (fun _ => (0, 0)) ∧
    (runTrace
      [VisEvent.effectRun ⟨⟨[⟨"n1", "First", none⟩]⟩, [], ⟨none, none⟩⟩,
       VisEvent.effectRun ⟨⟨[⟨"n2", "Second", none⟩]⟩, [], ⟨none, none⟩⟩,
       VisEvent.layoutResolve ⟨⟨[⟨"n2", "Second", none⟩]⟩, [], ⟨none, none⟩⟩
         (fun _ => (0, 0)),
       VisEvent.layoutResolve ⟨⟨[⟨"n1", "First", none⟩]⟩, [], ⟨none, none⟩⟩
         (fun _ => (0, 0))]).nodes ≠
      layoutedNodes ⟨⟨[⟨"n2", "Second", none⟩]⟩, [], ⟨none, none⟩⟩
        (fun _ => (0, 0)) := by
  refine ⟨by simp [wfTrace, wfTraceFrom], ?_, by decide⟩
  exact (last_resolved_wins
    [VisEvent.effectRun ⟨⟨[⟨"n1", "First", none⟩]⟩, [], ⟨none, none⟩⟩,
     VisEvent.effectRun ⟨⟨[⟨"n2", "Second", none⟩]⟩, [], ⟨none, none⟩⟩,
     VisEvent.layoutResolve ⟨⟨[⟨"n2", "Second", none⟩]⟩, [], ⟨none, none⟩⟩
       (fun _ => (0, 0))]
    [] ⟨⟨[⟨"n1", "First", none⟩]⟩, [], ⟨none, none⟩⟩ (fun _ => (0, 0))
    (by simp)).1

/-- C10: The derived edge identifier `e{dep}-{node.id}` is not injective when
node ids contain the character `-`: dependency `a-b` of node `c` and
dependency `a` of node `b-c` both yield an edge with id `ea-b-c`, though the
two (dependency, node) pairs are distinct. -/
theorem edge_id_collision :
    (⟨"ea-b-c", "a-b", "c"⟩ : FlowEdge) ∈
      transformEdges ⟨[⟨"a-b", "A", none⟩, ⟨"a", "B", none⟩,
        ⟨"b-c", "C", some ["a"]⟩, ⟨"c", "D", some ["a-b"]⟩]⟩ ∧
    (⟨"ea-b-c", "a", "b-c"⟩ : FlowEdge) ∈
      transformEdges ⟨[⟨"a-b", "A", none⟩, ⟨"a", "B", none⟩,
        ⟨"b-c", "C", some ["a"]⟩, ⟨"c", "D", some ["a-b"]⟩]⟩ ∧
    (⟨"ea-b-c", "a-b", "c"⟩ : FlowEdge).id =
      (⟨"ea-b-c", "a", "b-c"⟩ : FlowEdge).id ∧
    ((⟨"ea-b-c", "a-b", "c"⟩ : FlowEdge).source ≠
        (⟨"ea-b-c", "a", "b-c"⟩ : FlowEdge).source ∨
      (⟨"ea-b-c", "a-b", "c"⟩ : FlowEdge).target ≠
        (⟨"ea-b-c", "a", "b-c"⟩ : FlowEdge).target) := by
  decide
